import Mathlib

/-!
Verification development for the core-engine-vis graph runtime.

The definitions below are a shallow embedding of the TypeScript sources:
JavaScript values are modelled by the inductive `Value` (rationals stand in
for finite JS numbers, with a separate `nan` constructor for the non-finite
results that the embedded code can produce), JS `Map` objects and plain
records are modelled by insertion-ordered association lists over `String`
keys (`aset` preserves the position of an existing key and appends new keys,
matching `Map.set` and property assignment), and the asynchronous runner is
modelled by an explicit `RunnerState` record threaded through the
synchronous state transitions that the source performs between suspension
points.
-/

namespace CoreEngineVis

/-- Model of a JavaScript runtime value as passed between nodes, pins and
stores. `undef` is `undefined`, `null` is `null`, `nan` stands for any
non-finite number (`NaN`, `Infinity`), `num` is a finite number modelled as a
rational, `bool` and `str` are the evident primitives. -/
inductive Value where
  | undef
  | null
  | nan
  | bool (b : Bool)
  | num (q : ℚ)
  | str (s : String)
  deriving DecidableEq, Repr

/-- Lookup in an insertion-ordered association list (model of `Map.get` and
of reading a record property): the first entry with the given key wins. -/
def alookup {α : Type} : List (String × α) → String → Option α
  | [], _ => none
  | (k, v) :: rest, key => if k = key then some v else alookup rest key

/-- Insertion into an insertion-ordered association list (model of `Map.set`
and of writing a record property): an existing key keeps its position and
gets the new value, a fresh key is appended at the end. -/
def aset {α : Type} : List (String × α) → String → α → List (String × α)
  | [], key, value => [(key, value)]
  | (k, v) :: rest, key, value =>
      if k = key then (key, value) :: rest else (k, v) :: aset rest key value

/-- Deletion from an association list (model of `Map.delete`): removes the
first entry with the given key. -/
def adelete {α : Type} : List (String × α) → String → List (String × α)
  | [], _ => []
  | (k, v) :: rest, key => if k = key then rest else (k, v) :: adelete rest key

theorem alookup_aset_self {α : Type} (m : List (String × α)) (k : String) (v : α) :
    alookup (aset m k v) k = some v := by
  induction m with
  | nil => simp [aset, alookup]
  | cons hd tl ih =>
      by_cases h : hd.1 = k
      · simp [aset, alookup, h]
      · simp [aset, alookup, h, ih]

theorem alookup_aset_ne {α : Type} (m : List (String × α)) (k k2 : String) (v : α)
    (h : k ≠ k2) : alookup (aset m k v) k2 = alookup m k2 := by
  induction m with
  | nil => simp [aset, alookup, h]
  | cons hd tl ih =>
      by_cases hk : hd.1 = k
      · simp [aset, alookup, hk, h]
      · simp only [aset, hk, if_false, alookup]
        by_cases hk2 : hd.1 = k2
        · simp [hk2]
        · simp [hk2, ih]

/-- Embedding of `makeScopeKey` from `VisScope.ts`: scope keys are the node id and pin id
joined by a colon. -/
def makeScopeKey (nodeId pinId : String) : String :=
  nodeId ++ (":") ++ pinId

/-- The pin-level scope store (`VisScope`): the underlying `Map` of a run. -/
abbrev ScopeMap := List (String × Value)

/-- Embedding of `VisScope.set`: store a value under the combined node/pin key. -/
def VisScope.set (s : ScopeMap) (nodeId pinId : String) (v : Value) : ScopeMap :=
  aset s (makeScopeKey nodeId pinId) v

/-- Embedding of `VisScope.get`: read a value by node/pin pair; a missing key reads as
`undefined`, exactly as `Map.get` does in the source. -/
def VisScope.get (s : ScopeMap) (nodeId pinId : String) : Value :=
  (alookup s (makeScopeKey nodeId pinId)).getD Value.undef

/-- The key set of `VisScope.snapshot` (`Object.fromEntries` keeps every
entry of the map, in insertion order). -/
def VisScope.snapshotKeys (s : ScopeMap) : List String :=
  s.map Prod.fst

/-- Runner lifecycle states (`RunnerStatus` in `VisComponentHost.ts`). -/
inductive RunnerStatus where
  | idle
  | running
  | completed
  | cancelled
  | failed
  deriving DecidableEq, Repr

/-- The two monotone latches of `VisExecutionSignal` plus its reason. -/
structure SignalState where
  cancelled : Bool
  fastForward : Bool
  reason : Option String
  deriving DecidableEq, Repr

/-- A recorded waiter (`NodeWaiter` in the source): the completion count it
is waiting for; `wid` models the identity of its `resolve` callback so that
waking can be observed in the model. -/
structure NodeWaiter where
  targetCount : Nat
  wid : Nat
  deriving DecidableEq, Repr

/-- The mutable state of a `VisGraphRunner` between suspension points.
`fibers` is the size of the `_fibers` set, `hasResolver` records whether
`_resolveCompletion` is set, `completionResolved` records whether the
completion promise has been resolved, and `resolved` collects the ids of
every waiter whose `resolve` callback has been invoked. -/
structure RunnerState where
  status : RunnerStatus
  scope : ScopeMap
  blackboard : List (String × Value)
  completionCounts : List (String × Nat)
  waiters : List (String × List NodeWaiter)
  resolved : List Nat
  signal : SignalState
  fibers : Nat
  hasResolver : Bool
  completionResolved : Bool
  deriving DecidableEq, Repr

/-- Embedding of `VisGraphRunner._resolveAllWaiters`: resolve every outstanding waiter
and clear the waiter map. -/
def resolveAllWaiters (st : RunnerState) : RunnerState :=
  { st with
      resolved := st.resolved ++ st.waiters.foldl (fun acc kv => acc ++ kv.2.map NodeWaiter.wid) []
      waiters := [] }

/-- Embedding of `VisExecutionSignal.cancel` as observed by the runner: a second cancel is
a no-op; the first one latches the flag, stores the reason, and (through the
subscription installed in the runner constructor) resolves all waiters. -/
def signalCancel (st : RunnerState) (reason : Option String) : RunnerState :=
  if st.signal.cancelled then st
  else resolveAllWaiters
    { st with signal := { st.signal with cancelled := true, reason := reason } }

/-- Embedding of `VisGraphRunner._markNodeCompleted`: increment the completion count of
`nodeId`, then resolve and remove every waiter on `nodeId` whose target
count is at or below the new count, deleting the waiter bucket when it
empties. -/
def markNodeCompleted (st : RunnerState) (nodeId : String) : RunnerState :=
  let nextCount := (alookup st.completionCounts nodeId).getD 0 + 1
  let counts := aset st.completionCounts nodeId nextCount
  match alookup st.waiters nodeId with
  | none => { st with completionCounts := counts }
  | some ws =>
      if ws.isEmpty then { st with completionCounts := counts }
      else
        let woken := ws.filter (fun w => decide (w.targetCount ≤ nextCount))
        let remaining := ws.filter (fun w => decide (¬ w.targetCount ≤ nextCount))
        let waiters2 :=
          if remaining.isEmpty then adelete st.waiters nodeId
          else aset st.waiters nodeId remaining
        { st with
            completionCounts := counts
            waiters := waiters2
            resolved := st.resolved ++ woken.map NodeWaiter.wid }

/-- Embedding of `VisGraphRunner._finish`: when the status is already terminal, only
resolve the completion promise; otherwise set the status to the given state
and resolve the promise. -/
def finishRunner (st : RunnerState) (state : RunnerStatus) : RunnerState :=
  if st.status = RunnerStatus.completed ∨ st.status = RunnerStatus.failed ∨
      st.status = RunnerStatus.cancelled then
    if st.hasResolver then { st with completionResolved := true, hasResolver := false }
    else st
  else
    if st.hasResolver then
      { st with status := state, completionResolved := true, hasResolver := false }
    else { st with status := state }

/-- The synchronous effect of `VisGraphRunner.run`: a non-idle runner is
left untouched and no fiber is spawned (the second component counts the
fibers spawned by the call); an idle runner transitions to `running`,
creates the completion promise, spawns one fiber per root, and finishes as
`completed` at once when there are no roots. The bodies of the spawned
fibers are modelled separately by `fiberProcessNode` and `fiberSettle`. -/
def runnerRun (roots : List String) (st : RunnerState) : RunnerState × Nat :=
  if st.status ≠ RunnerStatus.idle then (st, 0)
  else
    let st1 :=
      { st with
          status := RunnerStatus.running
          hasResolver := true
          completionResolved := false
          fibers := roots.length }
    if roots.length = 0 then (finishRunner st1 RunnerStatus.completed, 0)
    else (st1, roots.length)

/-- Errors thrown by embedded JavaScript code, carried as their message. -/
abbrev Err := String

/-- Status component of a node result (`VisNodeStatus`). -/
inductive NodeStatus where
  | success
  | running
  | failure
  | skipped
  deriving DecidableEq, Repr

/-- Embedding of `VisFlowTransition`: an outgoing routing directive of a node result. -/
structure FlowTransition where
  pinId : String
  strategy : Option String
  awaitCompletion : Option Bool
  deriving DecidableEq, Repr

/-- Embedding of `VisNodeExecutionResult`: outputs records are modelled by insertion
ordered association lists, mirroring `Object.entries` iteration. -/
structure NodeResult where
  status : NodeStatus
  outputs : Option (List (String × Value))
  transitions : Option (List FlowTransition)
  waitFor : Option (List String)
  waitForNext : Option Bool
  deriving DecidableEq, Repr

/-- Embedding of `VisNodeResult.success`. -/
def VisNodeResult.success (outputs : Option (List (String × Value)))
    (transitions : Option (List FlowTransition)) : NodeResult :=
  ⟨NodeStatus.success, outputs, transitions, none, none⟩

/-- Embedding of `VisNodeResult.skipped`. -/
def VisNodeResult.skipped (transitions : Option (List FlowTransition)) : NodeResult :=
  ⟨NodeStatus.skipped, none, transitions, none, none⟩

/-- Embedding of `VisNodeResult.cancelled`: a bare `skipped` result. -/
def VisNodeResult.cancelled : NodeResult :=
  ⟨NodeStatus.skipped, none, none, none, none⟩

/-- Embedding of `VisNodeResult.failure`. -/
def VisNodeResult.failure (message : Option String) : NodeResult :=
  ⟨NodeStatus.failure,
   match message with
   | some m => some [(("error"), Value.str m)]
   | none => none,
   none, none, none⟩

/-- One iteration of the `while` body of `VisGraphRunner._runFiber` for a
scheduled node, at the granularity the completion-count bookkeeping needs.
`invoke` is the outcome of `await this._invokeNode(...)` (arbitrary node
code: either a result or a thrown error). `tryBody` abstracts the block
guarded by `try { ... }` in the source — waiting on `waitFor` targets,
applying outputs to scope and routing transitions — as a state transition
that may itself end in a thrown error; those steps are modelled concretely
by `waitForNode`, `applyOutputs` and the graph functions below. The crucial
structure from the source is kept exactly: the `finally` clause that calls
`_markNodeCompleted` guards only `tryBody`, not `invoke`, so an invocation
that throws skips the completion marking entirely. -/
def fiberProcessNode (st : RunnerState) (nodeId : String)
    (invoke : Except Err NodeResult)
    (tryBody : RunnerState → NodeResult → RunnerState × Except Err Unit) :
    RunnerState × Except Err Unit :=
  match invoke with
  | Except.error e => (st, Except.error e)
  | Except.ok result =>
      let step := tryBody st result
      (markNodeCompleted step.1 nodeId, step.2)

/-- The `.catch`/`.finally` continuation attached to a fiber promise in
`VisGraphRunner._spawnFiber`: a thrown fiber body flips the status to
`failed` and cancels the signal; then the fiber is removed from the set and,
when it was the last one, the terminal state is computed (`cancelled` when
the signal is cancelled, else `failed` when a fiber threw, else
`completed`) and passed to `_finish`. -/
def fiberSettle (st : RunnerState) (outcome : Except Err Unit) : RunnerState :=
  let st1 :=
    match outcome with
    | Except.ok _ => st
    | Except.error e => signalCancel { st with status := RunnerStatus.failed } (some e)
  let st2 := { st1 with fibers := st1.fibers - 1 }
  if st2.fibers = 0 then
    finishRunner st2
      (if st2.signal.cancelled then RunnerStatus.cancelled
       else if st2.status = RunnerStatus.failed then RunnerStatus.failed
       else RunnerStatus.completed)
  else st2

/-- Adding a waiter to the waiter map (`_waiters.get(nodeId)!.add(waiter)`,
creating the bucket first when missing; set insertion appends). -/
def addWaiter (waiters : List (String × List NodeWaiter)) (nodeId : String)
    (w : NodeWaiter) : List (String × List NodeWaiter) :=
  aset waiters nodeId ((alookup waiters nodeId).getD [] ++ [w])

/-- Embedding of `VisGraphRunner._waitForNode`: the Boolean in the result records whether
a promise was created, i.e. whether the fiber suspends; when it does, the
promise executor synchronously records a waiter with the computed target
count. Both early-return checks of the source are kept verbatim. -/
def waitForNode (counts : List (String × Nat))
    (waiters : List (String × List NodeWaiter)) (nodeId : String)
    (waitForNext : Bool) (wid : Nat) : List (String × List NodeWaiter) × Bool :=
  let completed := (alookup counts nodeId).getD 0
  let targetCount := if waitForNext then completed + 1 else 1
  if ¬ waitForNext ∧ completed ≥ targetCount then (waiters, false)
  else if waitForNext ∧ completed ≥ targetCount then (waiters, false)
  else (addWaiter waiters nodeId ⟨targetCount, wid⟩, true)

/-- Embedding of `VisGraphRunner._applyOutputs`: absent outputs write nothing; otherwise
every entry of the outputs record — with no filtering whatsoever — is
written into the scope under the node/pin key. -/
def applyOutputs (scope : ScopeMap) (nodeId : String)
    (outputs : Option (List (String × Value))) : ScopeMap :=
  match outputs with
  | none => scope
  | some outs => outs.foldl (fun sc kv => VisScope.set sc nodeId kv.1 kv.2) scope

/-- The slice of `VisNodeExecutionContext` a node body can observe in this
model: the resolved inputs record, the shared blackboard, and the run
signal. -/
structure Ctx where
  inputs : List (String × Value)
  blackboard : List (String × Value)
  signal : SignalState
  deriving Repr

/-- A `VisRuntimeNode` instance as the runner sees it: the subclass hook
`_onExecute` and the overridable `onFastForward`. -/
structure RuntimeNode where
  onExecute : Ctx → NodeResult
  onFastForward : Ctx → NodeResult

/-- The base-class `onFastForward` of `VisRuntimeNode`: always a bare
`skipped` result. -/
def VisRuntimeNode.defaultOnFastForward : Ctx → NodeResult :=
  fun _ => VisNodeResult.skipped none

/-- Embedding of `VisRuntimeNode.execute`: a cancelled signal short-circuits to the
cancelled-equivalent result, a fast-forwarding signal delegates to
`onFastForward`, and otherwise the subclass hook runs. -/
def VisRuntimeNode.execute (node : RuntimeNode) (ctx : Ctx) : NodeResult :=
  if ctx.signal.cancelled then VisNodeResult.cancelled
  else if ctx.signal.fastForward then node.onFastForward ctx
  else node.onExecute ctx

/-- Embedding of `VisNodeExecutionContext.getInput`: read `inputs[pinId]` (a missing
property reads as `undefined`) and apply the nullish-coalescing operator
with the fallback. -/
def VisNodeExecutionContext.getInput (inputs : List (String × Value))
    (pinId : String) (fallback : Value) : Value :=
  let v := (alookup inputs pinId).getD Value.undef
  if v = Value.null ∨ v = Value.undef then fallback else v

/-- Digits of a decimal literal folded into a natural number. -/
def digitsToNat (cs : List Char) : Nat :=
  cs.foldl (fun n c => n * 10 + (c.toNat - 48)) 0

/-- The value of `Number(s)` for a string, as far as this model needs it:
blank strings coerce to `0`; optionally signed decimal literals (with an
optional fraction part) coerce to their value; everything else — including
exponent forms and the `Infinity` literals, which the embedded code never
relies on — is treated as non-finite (`none`). -/
def jsStringToNumber (s : String) : Option ℚ :=
  let t := s.trim
  if t = ("") then some 0
  else
    let p : ℚ × List Char :=
      match t.toList with
      | '-' :: cs => (-1, cs)
      | '+' :: cs => (1, cs)
      | cs => (1, cs)
    let intPart := p.2.takeWhile Char.isDigit
    let rest := p.2.dropWhile Char.isDigit
    match rest with
    | [] => if intPart.isEmpty then none else some (p.1 * digitsToNat intPart)
    | '.' :: cs =>
        let fracPart := cs.takeWhile Char.isDigit
        let rest2 := cs.dropWhile Char.isDigit
        if rest2.isEmpty ∧ (¬ intPart.isEmpty ∨ ¬ fracPart.isEmpty) then
          some (p.1 * ((digitsToNat intPart : ℚ) +
            (digitsToNat fracPart : ℚ) / ((10 : ℚ) ^ fracPart.length)))
        else none
    | _ => none

/-- Coercion `Number(value)` restricted to finite outcomes: `none` stands for a
non-finite coercion (`NaN` or an infinity). -/
def jsToNum : Value → Option ℚ
  | Value.undef => none
  | Value.null => some 0
  | Value.nan => none
  | Value.bool b => some (if b then 1 else 0)
  | Value.num q => some q
  | Value.str s => jsStringToNumber s

/-- The `toNumber` helper of the control-node module: `Number(value)` when
finite, else the fallback. -/
def toNumber (v : Value) (fallback : ℚ) : ℚ :=
  (jsToNum v).getD fallback

/-- JavaScript `value < t` against a finite number: the left operand is
coerced with `Number`; any non-finite coercion makes the comparison false
(`NaN` comparisons are false, and the only non-finite left operands the
embedded code can produce are `NaN`-like). -/
def jsLt (v : Value) (t : ℚ) : Bool :=
  match jsToNum v with
  | some q => decide (q < t)
  | none => false

/-- JavaScript `value + 1`: strings concatenate, everything else is coerced
with `Number` first (a non-finite coercion yields a non-finite result). -/
def jsAdd1 : Value → Value
  | Value.str s => Value.str (s ++ ("1"))
  | v =>
      match jsToNum v with
      | some q => Value.num (q + 1)
      | none => Value.nan

/-- The nullish-coalescing operator `x ?? d` applied to an optional stored
value (absent, `null` and `undefined` all fall back to the default). -/
def nullishGetD (v : Option Value) (d : Value) : Value :=
  match v with
  | some x => if x = Value.null ∨ x = Value.undef then d else x
  | none => d

/-- The parameter state of a hydrated `VisLoopNode` instance: its node id
and the `count` and `loopKey` parameters. -/
structure LoopNodeState where
  id : String
  count : ℚ
  loopKey : String
  deriving Repr

/-- Embedding of `VisLoopNode._onExecute`: coerce the `count` input (falling back to the
`count` parameter) to a non-negative integer, read the current index from
the blackboard key `loop:<nodeId>:<loopKey>` (defaulting to `0`), and either
advance the index and route to `body` emitting the old index, or clear the
key and route to `complete`. Returns the updated blackboard next to the
node result (the source mutates `ctx.blackboard` through
`setVariable`/`clearVariable`). -/
def VisLoopNode.onExecute (node : LoopNodeState) (ctx : Ctx) :
    List (String × Value) × NodeResult :=
  let total : ℚ :=
    ((max 0 ⌊toNumber
        (VisNodeExecutionContext.getInput ctx.inputs ("count") (Value.num node.count))
        node.count⌋ : ℤ) : ℚ)
  let key := ("loop:") ++ node.id ++ (":") ++ node.loopKey
  let current := nullishGetD (alookup ctx.blackboard key) (Value.num 0)
  if jsLt current total then
    (aset ctx.blackboard key (jsAdd1 current),
     VisNodeResult.success (some [(("index"), current)]) (some [⟨("body"), none, none⟩]))
  else
    (adelete ctx.blackboard key,
     VisNodeResult.success none (some [⟨("complete"), none, none⟩]))

/-- Connection kinds of a serialized graph asset. -/
inductive ConnKind where
  | flow
  | data
  deriving DecidableEq, Repr

/-- A connection endpoint (`{nodeId, pinId}`). -/
structure Endpoint where
  nodeId : String
  pinId : String
  deriving DecidableEq, Repr

/-- Embedding of `VisSerializedConnection`; the `from`/`to` fields are called `src`/`dst`
here because `from` is reserved in Lean. -/
structure SerializedConnection where
  kind : ConnKind
  src : Endpoint
  dst : Endpoint
  deriving DecidableEq, Repr

/-- Embedding of `VisSerializedNode`, restricted to the fields root resolution reads. -/
structure SerializedNode where
  id : String
  type : String
  deriving DecidableEq, Repr

/-- Embedding of `VisGraphAsset`; the `root` field models both the single-id and the
list forms (`Array.isArray(asset.root) ? asset.root : [asset.root]`) as an
optional list. -/
structure GraphAsset where
  id : String
  name : String
  root : Option (List String)
  nodes : List SerializedNode
  connections : List SerializedConnection
  deriving DecidableEq, Repr

/-- Embedding of `VisGraph._resolveRoots`: an explicit root wins; otherwise the target
node id of every connection — of either kind — is collected into the
`incoming` set and the nodes outside it become the roots, in asset order;
when that filter is empty, the first node (when any) is the sole root. -/
def VisGraph.resolveRoots (asset : GraphAsset) : List String :=
  match asset.root with
  | some r => r
  | none =>
      let incoming := asset.connections.map (fun c => c.dst.nodeId)
      let roots := (asset.nodes.map SerializedNode.id).filter
        (fun id => ! incoming.contains id)
      if roots.isEmpty then
        match asset.nodes with
        | [] => []
        | n :: _ => [n.id]
      else roots

/-- Modelled from the claim wording (not from the source): roots computed
from inbound **flow** connections only. Used to compare the specified root
rule against the implemented one. -/
def claimRootsFlowOnly (asset : GraphAsset) : List String :=
  match asset.root with
  | some r => r
  | none =>
      let roots := (asset.nodes.map SerializedNode.id).filter
        (fun id => decide (∀ c ∈ asset.connections,
          c.kind = ConnKind.flow → c.dst.nodeId ≠ id))
      if roots.isEmpty then
        match asset.nodes with
        | [] => []
        | n :: _ => [n.id]
      else roots

/-- A data-connection source (`DataBinding` in `graph.ts`). -/
structure DataBinding where
  nodeId : String
  pinId : String
  deriving DecidableEq, Repr

/-- Embedding of `VisGraph.buildInputs` for one node, taking the fields of the hydrated
node that the source reads: its literal inputs record and its data
adjacency (`_dataMap.get(nodeId)`, a map from input pin id to the list of
sources in connection insertion order; an absent adjacency is the empty
list). Start from a copy of the literal inputs; for every source of every
bound pin, overwrite the pin with the scope value of the source when that
value is defined. -/
def VisGraph.buildInputs (literalInputs : List (String × Value))
    (dataAdjacency : List (String × List DataBinding)) (scope : ScopeMap) :
    List (String × Value) :=
  dataAdjacency.foldl
    (fun values entry =>
      entry.2.foldl
        (fun values source =>
          let value := VisScope.get scope source.nodeId source.pinId
          if value ≠ Value.undef then aset values entry.1 value else values)
        values)
    literalInputs

/-- The scope values of a list of data-connection sources, keeping only the
defined ones, in source order. -/
def definedSourceVals (scope : ScopeMap) (sources : List DataBinding) : List Value :=
  (sources.map (fun s => VisScope.get scope s.nodeId s.pinId)).filter
    (fun v => decide (v ≠ Value.undef))

/-- The last element of a list when there is one, else the default option. -/
def lastOr (l : List Value) (d : Option Value) : Option Value :=
  match l with
  | [] => d
  | v :: rest => lastOr rest (some v)

/-- A run of scope writes: the sequence of `(nodeId, outputs)` pairs that a
run feeds to `_applyOutputs`, folded over the empty initial scope. -/
def runApplyOutputs (events : List (String × Option (List (String × Value)))) : ScopeMap :=
  events.foldl (fun sc e => applyOutputs sc e.1 e.2) []

/-- The values written to scope key `k` by one `_applyOutputs` event, in
write order. -/
def eventWrites (nodeId : String) (outputs : Option (List (String × Value)))
    (k : String) : List Value :=
  (outputs.getD []).filterMap
    (fun kv => if makeScopeKey nodeId kv.1 = k then some kv.2 else none)

/-- The values written to scope key `k` by a sequence of `_applyOutputs`
events, in write order. -/
def writesTo : List (String × Option (List (String × Value))) → String → List Value
  | [], _ => []
  | e :: rest, k => eventWrites e.1 e.2 k ++ writesTo rest k

theorem alookup_eq_none_iff {α : Type} (m : List (String × α)) (k : String) :
    alookup m k = none ↔ k ∉ m.map Prod.fst := by
  induction m with
  | nil => simp [alookup]
  | cons hd tl ih =>
      by_cases h : hd.1 = k
      · simp [alookup, h]
      · simp [alookup, h, ih, Ne.symm h]

theorem lastOr_append (a b : List Value) (d : Option Value) :
    lastOr (a ++ b) d = lastOr b (lastOr a d) := by
  induction a generalizing d with
  | nil => simp [lastOr]
  | cons v rest ih => simp [lastOr, ih]

theorem lastOr_some_ne_none (l : List Value) (v : Value) :
    lastOr l (some v) ≠ none := by
  induction l generalizing v with
  | nil => simp [lastOr]
  | cons w rest ih => simpa [lastOr] using ih w

theorem lastOr_none_eq_none_iff (l : List Value) :
    lastOr l none = none ↔ l = [] := by
  cases l with
  | nil => simp [lastOr]
  | cons v rest => simp [lastOr, lastOr_some_ne_none]

theorem markNodeCompleted_count (st : RunnerState) (nodeId : String) :
    (alookup (markNodeCompleted st nodeId).completionCounts nodeId).getD 0
      = (alookup st.completionCounts nodeId).getD 0 + 1 := by
  unfold markNodeCompleted
  cases h : alookup st.waiters nodeId with
  | none => simp [alookup_aset_self]
  | some ws =>
      by_cases hws : ws.isEmpty <;> simp [hws, alookup_aset_self]

theorem markNodeCompleted_wakes (st : RunnerState) (nodeId : String) (w : NodeWaiter)
    (hw : w ∈ (alookup st.waiters nodeId).getD [])
    (hle : w.targetCount ≤ (alookup st.completionCounts nodeId).getD 0 + 1) :
    w.wid ∈ (markNodeCompleted st nodeId).resolved := by
  unfold markNodeCompleted
  cases h : alookup st.waiters nodeId with
  | none => rw [h] at hw; simp at hw
  | some ws =>
      rw [h] at hw
      simp only [Option.getD_some] at hw
      have hne : ¬ ws.isEmpty := by
        cases ws with
        | nil => simp at hw
        | cons a l => simp
      simp only [hne, if_false]
      refine List.mem_append_right _ ?_
      refine List.mem_map.mpr ⟨w, ?_, rfl⟩
      exact List.mem_filter.mpr ⟨hw, by simpa using hle⟩

theorem applyOutputs_lookup (nodeId : String) (outs : Option (List (String × Value)))
    (sc : ScopeMap) (k : String) :
    alookup (applyOutputs sc nodeId outs) k
      = lastOr (eventWrites nodeId outs k) (alookup sc k) := by
  cases outs with
  | none => simp [applyOutputs, eventWrites, lastOr]
  | some l =>
      induction l generalizing sc with
      | nil => simp [applyOutputs, eventWrites, lastOr]
      | cons kv rest ih =>
          simp only [applyOutputs, List.foldl_cons] at ih ⊢
          by_cases h : makeScopeKey nodeId kv.1 = k
          · have h1 : alookup (VisScope.set sc nodeId kv.1 kv.2) k = some kv.2 := by
              rw [← h]; exact alookup_aset_self sc (makeScopeKey nodeId kv.1) kv.2
            simpa [eventWrites, List.filterMap_cons, h, lastOr, h1] using
              ih (VisScope.set sc nodeId kv.1 kv.2)
          · have h1 : alookup (VisScope.set sc nodeId kv.1 kv.2) k = alookup sc k :=
              alookup_aset_ne sc (makeScopeKey nodeId kv.1) k kv.2 h
            simpa [eventWrites, List.filterMap_cons, h, lastOr, h1] using
              ih (VisScope.set sc nodeId kv.1 kv.2)

theorem foldOutputs_lookup (events : List (String × Option (List (String × Value))))
    (init : ScopeMap) (k : String) :
    alookup (events.foldl (fun sc e => applyOutputs sc e.1 e.2) init) k
      = lastOr (writesTo events k) (alookup init k) := by
  induction events generalizing init with
  | nil => simp [writesTo, lastOr]
  | cons e rest ih =>
      simp only [List.foldl_cons, writesTo]
      rw [ih (applyOutputs init e.1 e.2), lastOr_append, applyOutputs_lookup]

theorem buildInputs_inner_self (scope : ScopeMap) (q : String) (sources : List DataBinding) :
    ∀ values : List (String × Value),
      alookup (sources.foldl
        (fun values source =>
          let value := VisScope.get scope source.nodeId source.pinId
          if value ≠ Value.undef then aset values q value else values) values) q
        = lastOr (definedSourceVals scope sources) (alookup values q) := by
  induction sources with
  | nil => intro values; simp [definedSourceVals, lastOr]
  | cons s rest ih =>
      intro values
      simp only [List.foldl_cons]
      by_cases h : VisScope.get scope s.nodeId s.pinId = Value.undef
      · simpa [definedSourceVals, List.filter_cons, h] using ih values
      · have h2 := ih (aset values q (VisScope.get scope s.nodeId s.pinId))
        rw [alookup_aset_self] at h2
        simpa [definedSourceVals, List.filter_cons, h, lastOr] using h2

theorem buildInputs_inner_other (scope : ScopeMap) (q p : String) (hqp : q ≠ p)
    (sources : List DataBinding) :
    ∀ values : List (String × Value),
      alookup (sources.foldl
        (fun values source =>
          let value := VisScope.get scope source.nodeId source.pinId
          if value ≠ Value.undef then aset values q value else values) values) p
        = alookup values p := by
  induction sources with
  | nil => intro values; simp
  | cons s rest ih =>
      intro values
      simp only [List.foldl_cons]
      by_cases h : VisScope.get scope s.nodeId s.pinId = Value.undef
      · simpa [h] using ih values
      · have h2 := ih (aset values q (VisScope.get scope s.nodeId s.pinId))
        rw [alookup_aset_ne _ _ _ _ hqp] at h2
        simpa [h] using h2

theorem buildInputs_lookup_notin (scope : ScopeMap) (adj : List (String × List DataBinding)) :
    ∀ (lits : List (String × Value)) (p : String), p ∉ adj.map Prod.fst →
      alookup (VisGraph.buildInputs lits adj scope) p = alookup lits p := by
  induction adj with
  | nil => intro lits p _; rfl
  | cons entry rest ih =>
      intro lits p hp
      simp only [List.map_cons, List.mem_cons, not_or] at hp
      have step := ih (entry.2.foldl
        (fun values source =>
          let value := VisScope.get scope source.nodeId source.pinId
          if value ≠ Value.undef then aset values entry.1 value else values) lits) p hp.2
      unfold VisGraph.buildInputs at step ⊢
      simp only [List.foldl_cons]
      rw [step, buildInputs_inner_other scope entry.1 p (Ne.symm hp.1)]

/-- C3: when a fiber body throws during a run and that fiber is the last one
to settle, the terminal status of the runner is `failed` and not
`cancelled` — even though the failure handler cancels the signal as a side
effect — and the completion promise is resolved. The `.catch` handler sets
the status to `failed` before cancelling; the `.finally` handler then
computes `cancelled` from the cancelled signal, but `_finish` is sticky on
the already-terminal `failed` status and only resolves the promise. -/
theorem claim3_fiber_failure_is_failed (st : RunnerState) (e : Err)
    (_hrun : st.status = RunnerStatus.running) (hfib : st.fibers = 1)
    (hres : st.hasResolver = true) :
    (fiberSettle st (Except.error e)).status = RunnerStatus.failed
    ∧ (fiberSettle st (Except.error e)).status ≠ RunnerStatus.cancelled
    ∧ (fiberSettle st (Except.error e)).completionResolved = true := by
  cases hcan : st.signal.cancelled <;>
    simp [fiberSettle, signalCancel, resolveAllWaiters, finishRunner, hcan, hfib, hres]

theorem claim3_fiber_failure_is_failed_witness :
    (fiberSettle ⟨RunnerStatus.running, [], [], [], [], [], ⟨false, false, none⟩, 1, true, false⟩
        (Except.error ("boom"))).status = RunnerStatus.failed
    ∧ (fiberSettle ⟨RunnerStatus.running, [], [], [], [], [], ⟨false, false, none⟩, 1, true, false⟩
        (Except.error ("boom"))).status ≠ RunnerStatus.cancelled
    ∧ (fiberSettle ⟨RunnerStatus.running, [], [], [], [], [], ⟨false, false, none⟩, 1, true, false⟩
        (Except.error ("boom"))).completionResolved = true :=
  claim3_fiber_failure_is_failed
    ⟨RunnerStatus.running, [], [], [], [], [], ⟨false, false, none⟩, 1, true, false⟩
    ("boom") rfl rfl rfl

/-- C5: for a waitFor target, `waitForNext = false` resolves without
suspension exactly when the completion count is already at least `1` and
otherwise records a waiter with target count `1`, while `waitForNext = true`
always records a waiter with target count one above the current completion
count (the second early-return check of the source is dead: a count is
never at or above its own successor). -/
theorem claim5_waitForNode_targets (counts : List (String × Nat))
    (waiters : List (String × List NodeWaiter)) (nodeId : String) (wid : Nat)
    (waitForNext : Bool) :
    waitForNode counts waiters nodeId waitForNext wid =
      if waitForNext then
        (addWaiter waiters nodeId ⟨(alookup counts nodeId).getD 0 + 1, wid⟩, true)
      else if (alookup counts nodeId).getD 0 ≥ 1 then (waiters, false)
      else (addWaiter waiters nodeId ⟨1, wid⟩, true) := by
  cases waitForNext with
  | false =>
      by_cases h : (alookup counts nodeId).getD 0 ≥ 1 <;> simp [waitForNode, h]
  | true => simp [waitForNode]

/-- C6: calling `run()` on a non-idle runner changes nothing — the state
(status, scope, blackboard, completion counts, waiters, signal, fibers and
completion promise) is returned untouched and zero fibers are spawned; the
handle it returns is just a view of the existing runner. -/
theorem claim6_run_requires_idle (roots : List String) (st : RunnerState)
    (h : st.status ≠ RunnerStatus.idle) :
    runnerRun roots st = (st, 0) := by
  simp [runnerRun, h]

theorem claim6_run_requires_idle_witness :
    runnerRun [("r")]
        ⟨RunnerStatus.running, [(("a:v"), Value.num 1)], [], [(("a"), 1)], [], [],
          ⟨false, false, none⟩, 1, true, false⟩
      = (⟨RunnerStatus.running, [(("a:v"), Value.num 1)], [], [(("a"), 1)], [], [],
          ⟨false, false, none⟩, 1, true, false⟩, 0) :=
  claim6_run_requires_idle [("r")]
    ⟨RunnerStatus.running, [(("a:v"), Value.num 1)], [], [(("a"), 1)], [], [],
      ⟨false, false, none⟩, 1, true, false⟩ (by decide)

/-- C8: `execute` returns the bare skipped result (no transitions) when the
signal is cancelled, independently of the subclass hook; delegates exactly
to `onFastForward` when fast-forwarding; otherwise runs the subclass hook;
and the base `onFastForward` returns `skipped` with no transitions. -/
theorem claim8_execute_dispatch (node : RuntimeNode) (ctx : Ctx) :
    (ctx.signal.cancelled = true →
      VisRuntimeNode.execute node ctx = ⟨NodeStatus.skipped, none, none, none, none⟩)
    ∧ (ctx.signal.cancelled = false → ctx.signal.fastForward = true →
      VisRuntimeNode.execute node ctx = node.onFastForward ctx)
    ∧ (ctx.signal.cancelled = false → ctx.signal.fastForward = false →
      VisRuntimeNode.execute node ctx = node.onExecute ctx)
    ∧ VisRuntimeNode.defaultOnFastForward ctx = ⟨NodeStatus.skipped, none, none, none, none⟩ := by
  refine ⟨fun h => ?_, fun h hf => ?_, fun h hf => ?_, rfl⟩
  · simp [VisRuntimeNode.execute, VisNodeResult.cancelled, h]
  · simp [VisRuntimeNode.execute, h, hf]
  · simp [VisRuntimeNode.execute, h, hf]

theorem claim8_execute_dispatch_witness :
    VisRuntimeNode.execute
        ⟨fun _ => VisNodeResult.failure none, VisRuntimeNode.defaultOnFastForward⟩
        ⟨[], [], ⟨true, false, none⟩⟩
      = ⟨NodeStatus.skipped, none, none, none, none⟩ :=
  (claim8_execute_dispatch
    ⟨fun _ => VisNodeResult.failure none, VisRuntimeNode.defaultOnFastForward⟩
    ⟨[], [], ⟨true, false, none⟩⟩).1 rfl

/-- C10: `getInput` returns the fallback exactly when the resolved input
value is `null` or `undefined` (a missing pin resolves to `undefined`);
every other value — including falsy ones such as `false`, `0` and the empty
string — is returned as-is. -/
theorem claim10_getInput_nullish (inputs : List (String × Value)) (pinId : String)
    (fallback : Value) :
    ((alookup inputs pinId = none ∨ alookup inputs pinId = some Value.null ∨
        alookup inputs pinId = some Value.undef) →
      VisNodeExecutionContext.getInput inputs pinId fallback = fallback)
    ∧ (∀ v, alookup inputs pinId = some v → v ≠ Value.null → v ≠ Value.undef →
      VisNodeExecutionContext.getInput inputs pinId fallback = v) := by
  constructor
  · rintro (h | h | h) <;> simp [VisNodeExecutionContext.getInput, h]
  · intro v hv h1 h2
    simp [VisNodeExecutionContext.getInput, hv, h1, h2]

theorem claim10_getInput_nullish_witness :
    VisNodeExecutionContext.getInput [(("x"), Value.bool false)] ("x") (Value.num 1)
      = Value.bool false :=
  (claim10_getInput_nullish [(("x"), Value.bool false)] ("x") (Value.num 1)).2
    (Value.bool false) (by decide) (by decide) (by decide)

/-- C1 (counterexample): the claim asserts that on every path through a
fiber's processing of a node — including error paths caught by the fiber's
top-level catch — the completion count is incremented exactly once. Here the
invocation of node `a` itself throws: the error does reach the fiber's
top-level catch (second component), yet the completion count of `a` is not
incremented (it stays absent, i.e. `0`), because the `try`/`finally` that
performs the marking only begins after `_invokeNode` has been awaited. -/
theorem claim1_counterexample :
    (fiberProcessNode
        ⟨RunnerStatus.running, [], [], [], [], [], ⟨false, false, none⟩, 1, true, false⟩
        ("a") (Except.error ("boom")) (fun s _ => (s, Except.ok ()))).2
      = Except.error ("boom")
    ∧ alookup ((fiberProcessNode
        ⟨RunnerStatus.running, [], [], [], [], [], ⟨false, false, none⟩, 1, true, false⟩
        ("a") (Except.error ("boom")) (fun s _ => (s, Except.ok ()))).1).completionCounts ("a")
      = none :=
  ⟨rfl, rfl⟩

/-- C1 (amended): whenever the invocation of a node returns a result —
including fast-forward results and including error paths where waiting,
output application or routing throws inside the `try` block (any `tryBody`
that leaves the completion counts alone, as the source steps do) — the
node's completion count is incremented exactly once and every waiter on the
node whose target count is at or below the new count is woken; when the
invocation itself throws, the state is returned untouched, so the count is
not incremented. -/
theorem claim1_completion_marking (st : RunnerState) (nodeId : String)
    (tryBody : RunnerState → NodeResult → RunnerState × Except Err Unit)
    (hpres : ∀ s r, ((tryBody s r).1).completionCounts = s.completionCounts) :
    (∀ r : NodeResult,
      (alookup ((fiberProcessNode st nodeId (Except.ok r) tryBody).1).completionCounts
          nodeId).getD 0
        = (alookup st.completionCounts nodeId).getD 0 + 1
      ∧ ∀ w ∈ (alookup ((tryBody st r).1).waiters nodeId).getD [],
          w.targetCount ≤ (alookup st.completionCounts nodeId).getD 0 + 1 →
          w.wid ∈ ((fiberProcessNode st nodeId (Except.ok r) tryBody).1).resolved)
    ∧ ∀ e : Err, (fiberProcessNode st nodeId (Except.error e) tryBody).1 = st := by
  constructor
  · intro r
    have hc : ((tryBody st r).1).completionCounts = st.completionCounts := hpres st r
    constructor
    · show (alookup (markNodeCompleted (tryBody st r).1 nodeId).completionCounts nodeId).getD 0 = _
      rw [markNodeCompleted_count, hc]
    · intro w hw hle
      show w.wid ∈ (markNodeCompleted (tryBody st r).1 nodeId).resolved
      exact markNodeCompleted_wakes _ _ _ hw (by rw [hc]; exact hle)
  · intro e; rfl

theorem claim1_completion_marking_witness :
    (alookup ((fiberProcessNode
        ⟨RunnerStatus.running, [], [], [], [], [], ⟨false, false, none⟩, 1, true, false⟩
        ("a") (Except.ok VisNodeResult.cancelled) (fun s _ => (s, Except.ok ()))).1).completionCounts
        ("a")).getD 0
      = (alookup (RunnerState.completionCounts
        ⟨RunnerStatus.running, [], [], [], [], [], ⟨false, false, none⟩, 1, true, false⟩)
        ("a")).getD 0 + 1 :=
  ((claim1_completion_marking
    ⟨RunnerStatus.running, [], [], [], [], [], ⟨false, false, none⟩, 1, true, false⟩
    ("a") (fun s _ => (s, Except.ok ())) (fun _ _ => rfl)).1 VisNodeResult.cancelled).1

/-- C2 (counterexample): the claim asserts that with no declared root, the
roots are the nodes with no inbound **flow** connection. In this asset the
only connection is a **data** connection into node `B`; under the claim the
roots would be `[A, B]` (as `claimRootsFlowOnly` computes from the claim
wording), but `_resolveRoots` collects the target of every connection
regardless of its kind, so the implementation returns `[A]` only. -/
theorem claim2_counterexample :
    VisGraph.resolveRoots
        ⟨("g"), ("g"), none, [⟨("A"), ("t")⟩, ⟨("B"), ("t")⟩],
          [⟨ConnKind.data, ⟨("A"), ("p")⟩, ⟨("B"), ("q")⟩⟩]⟩
      = [("A")]
    ∧ claimRootsFlowOnly
        ⟨("g"), ("g"), none, [⟨("A"), ("t")⟩, ⟨("B"), ("t")⟩],
          [⟨ConnKind.data, ⟨("A"), ("p")⟩, ⟨("B"), ("q")⟩⟩]⟩
      = [("A"), ("B")] := by
  constructor <;> rfl

/-- C2 (amended): when a graph asset specifies no root, the hydrated roots
are exactly the nodes of the asset with no inbound connection of **any**
kind (flow or data), in asset order; if no such node exists, the roots are
the singleton list containing the first node of the asset (empty when the
asset has no nodes). -/
theorem claim2_roots_resolution (asset : GraphAsset) (h : asset.root = none) :
    VisGraph.resolveRoots asset =
      if ((asset.nodes.map SerializedNode.id).filter
            (fun id => decide (∀ c ∈ asset.connections, c.dst.nodeId ≠ id))).isEmpty then
        match asset.nodes with
        | [] => []
        | n :: _ => [n.id]
      else
        (asset.nodes.map SerializedNode.id).filter
          (fun id => decide (∀ c ∈ asset.connections, c.dst.nodeId ≠ id)) := by
  have hfilter : (asset.nodes.map SerializedNode.id).filter
        (fun id => ! (asset.connections.map (fun c => c.dst.nodeId)).contains id)
      = (asset.nodes.map SerializedNode.id).filter
        (fun id => decide (∀ c ∈ asset.connections, c.dst.nodeId ≠ id)) := by
    apply List.filter_congr
    intro id _
    rw [Bool.eq_iff_iff]
    simp [List.elem_iff, List.mem_map]
  unfold VisGraph.resolveRoots
  rw [h]
  simp only [hfilter]

theorem claim2_roots_resolution_witness :
    VisGraph.resolveRoots
        ⟨("g"), ("g"), none, [⟨("A"), ("t")⟩, ⟨("B"), ("t")⟩],
          [⟨ConnKind.data, ⟨("A"), ("p")⟩, ⟨("B"), ("q")⟩⟩]⟩
      =
      if ((([⟨("A"), ("t")⟩, ⟨("B"), ("t")⟩] : List SerializedNode).map SerializedNode.id).filter
            (fun id => decide (∀ c ∈ ([⟨ConnKind.data, ⟨("A"), ("p")⟩, ⟨("B"), ("q")⟩⟩] :
              List SerializedConnection), c.dst.nodeId ≠ id))).isEmpty then
        match ([⟨("A"), ("t")⟩, ⟨("B"), ("t")⟩] : List SerializedNode) with
        | [] => []
        | n :: _ => [n.id]
      else
        (([⟨("A"), ("t")⟩, ⟨("B"), ("t")⟩] : List SerializedNode).map SerializedNode.id).filter
          (fun id => decide (∀ c ∈ ([⟨ConnKind.data, ⟨("A"), ("p")⟩, ⟨("B"), ("q")⟩⟩] :
            List SerializedConnection), c.dst.nodeId ≠ id)) :=
  claim2_roots_resolution
    ⟨("g"), ("g"), none, [⟨("A"), ("t")⟩, ⟨("B"), ("t")⟩],
      [⟨ConnKind.data, ⟨("A"), ("p")⟩, ⟨("B"), ("q")⟩⟩]⟩ rfl

/-- C4 (counterexample): the claim asserts that scope snapshot keys are
exactly the node/pin pairs for which some node emitted a **non-undefined**
output. Here the only output ever applied is `undefined` on pin `v` of node
`n`, yet the snapshot contains the key `n:v` (mapped to `undefined`),
because `_applyOutputs` writes every entry of the outputs record without
filtering undefined values. -/
theorem claim4_counterexample :
    VisScope.snapshotKeys (applyOutputs [] ("n") (some [(("v"), Value.undef)])) = [("n:v")]
    ∧ alookup (applyOutputs [] ("n") (some [(("v"), Value.undef)])) ("n:v")
      = some Value.undef := by
  constructor <;> rfl

/-- C4 (amended): after any sequence of output applications starting from
the empty scope of a run, the scope holds key `k` exactly when some node
emitted an output on a node/pin pair with key `k` — whether or not the
emitted value was `undefined` — and the value under `k` is the last value
any node wrote to it. -/
theorem claim4_scope_last_write (events : List (String × Option (List (String × Value))))
    (k : String) :
    alookup (runApplyOutputs events) k = lastOr (writesTo events k) none
    ∧ (k ∈ VisScope.snapshotKeys (runApplyOutputs events) ↔ writesTo events k ≠ []) := by
  have hmain : alookup (runApplyOutputs events) k = lastOr (writesTo events k) none := by
    have h := foldOutputs_lookup events [] k
    simpa [runApplyOutputs, alookup] using h
  refine ⟨hmain, ?_⟩
  rw [VisScope.snapshotKeys]
  constructor
  · intro hk
    intro hempty
    have h1 : alookup (runApplyOutputs events) k = none := by
      rw [hmain, hempty]; rfl
    exact (alookup_eq_none_iff _ _).mp h1 hk
  · intro hne
    by_contra hk
    have h1 : alookup (runApplyOutputs events) k = none :=
      (alookup_eq_none_iff _ _).mpr hk
    rw [hmain] at h1
    exact hne ((lastOr_none_eq_none_iff _).mp h1)

theorem buildInputs_cons (lits : List (String × Value)) (entry : String × List DataBinding)
    (rest : List (String × List DataBinding)) (scope : ScopeMap) :
    VisGraph.buildInputs lits (entry :: rest) scope
      = VisGraph.buildInputs
          (entry.2.foldl
            (fun values source =>
              let value := VisScope.get scope source.nodeId source.pinId
              if value ≠ Value.undef then aset values entry.1 value else values) lits)
          rest scope := rfl

/-- C7: `buildInputs` equals the literal inputs overlaid, per data-bound
input pin, with the defined scope values of that pin's sources taken in
connection insertion order — the last source with a defined scope value
wins, and the literal fallback survives when no source value is defined.
The pin keys of the data adjacency are pairwise distinct because the source
stores them in a `Map`. -/
theorem claim7_buildInputs_overlay (lits : List (String × Value))
    (adj : List (String × List DataBinding)) (scope : ScopeMap) (p : String)
    (hnodup : (adj.map Prod.fst).Nodup) :
    alookup (VisGraph.buildInputs lits adj scope) p =
      match alookup adj p with
      | some sources => lastOr (definedSourceVals scope sources) (alookup lits p)
      | none => alookup lits p := by
  induction adj generalizing lits with
  | nil => simp [VisGraph.buildInputs, alookup]
  | cons entry rest ih =>
      simp only [List.map_cons, List.nodup_cons] at hnodup
      rw [buildInputs_cons]
      by_cases hp : entry.1 = p
      · subst hp
        rw [buildInputs_lookup_notin scope rest _ entry.1 hnodup.1,
          buildInputs_inner_self]
        simp [alookup]
      · rw [ih _ hnodup.2]
        have hlits := buildInputs_inner_other scope entry.1 p hp entry.2 lits
        have hcons : alookup (entry :: rest) p = alookup rest p := by
          cases entry with
          | mk k v => simp [alookup, hp]
        rw [hcons]
        cases hrest : alookup rest p <;> simp only [hrest] <;> rw [hlits]

theorem claim7_buildInputs_overlay_witness :
    alookup (VisGraph.buildInputs [(("c"), Value.num 5)]
        [(("c"), [⟨("a"), ("v")⟩, ⟨("b"), ("v")⟩])]
        [(("a:v"), Value.num 1), (("b:v"), Value.undef)]) ("c")
      =
      match alookup [(("c"), [(⟨("a"), ("v")⟩ : DataBinding), ⟨("b"), ("v")⟩])] ("c") with
      | some sources =>
          lastOr (definedSourceVals [(("a:v"), Value.num 1), (("b:v"), Value.undef)] sources)
            (alookup [(("c"), Value.num 5)] ("c"))
      | none => alookup [(("c"), Value.num 5)] ("c") :=
  claim7_buildInputs_overlay [(("c"), Value.num 5)]
    [(("c"), [⟨("a"), ("v")⟩, ⟨("b"), ("v")⟩])]
    [(("a:v"), Value.num 1), (("b:v"), Value.undef)] ("c") (by decide)

/-- C9: on an invocation whose blackboard slot for the loop key is absent
(current index `0`) or holds a number `i`, the Loop node compares `i` with
the count input coerced to a non-negative integer; when below, it stores
`i + 1` under the key and returns success routing to `body` with output
`index = i`; otherwise it deletes the key and routes to `complete`. In
particular, with count `0` the first invocation goes straight to
`complete`. -/
theorem claim9_loop_iteration (node : LoopNodeState) (ctx : Ctx) (i : ℚ)
    (h : (alookup ctx.blackboard (("loop:") ++ node.id ++ (":") ++ node.loopKey) = none
        ∧ i = 0)
      ∨ alookup ctx.blackboard (("loop:") ++ node.id ++ (":") ++ node.loopKey)
          = some (Value.num i)) :
    VisLoopNode.onExecute node ctx =
      if i < ((max 0 ⌊toNumber (VisNodeExecutionContext.getInput ctx.inputs ("count")
            (Value.num node.count)) node.count⌋ : ℤ) : ℚ) then
        (aset ctx.blackboard (("loop:") ++ node.id ++ (":") ++ node.loopKey)
            (Value.num (i + 1)),
         VisNodeResult.success (some [(("index"), Value.num i)])
           (some [⟨("body"), none, none⟩]))
      else
        (adelete ctx.blackboard (("loop:") ++ node.id ++ (":") ++ node.loopKey),
         VisNodeResult.success none (some [⟨("complete"), none, none⟩])) := by
  have hcur : nullishGetD
      (alookup ctx.blackboard (("loop:") ++ node.id ++ (":") ++ node.loopKey))
      (Value.num 0) = Value.num i := by
    rcases h with ⟨hn, hi⟩ | hs
    · rw [hn, hi]; rfl
    · rw [hs]; simp [nullishGetD]
  unfold VisLoopNode.onExecute
  simp only [hcur, jsLt, jsToNum, jsAdd1]
  by_cases hlt : i < ((max 0 ⌊toNumber (VisNodeExecutionContext.getInput ctx.inputs ("count")
      (Value.num node.count)) node.count⌋ : ℤ) : ℚ) <;>
    simp [hlt]

theorem claim9_loop_iteration_witness :
    VisLoopNode.onExecute ⟨("n"), 0, ("loop")⟩ ⟨[], [], ⟨false, false, none⟩⟩ =
      if (0 : ℚ) < ((max 0 ⌊toNumber (VisNodeExecutionContext.getInput [] ("count")
            (Value.num 0)) 0⌋ : ℤ) : ℚ) then
        (aset [] (("loop:") ++ ("n") ++ (":") ++ ("loop")) (Value.num (0 + 1)),
         VisNodeResult.success (some [(("index"), Value.num 0)])
           (some [⟨("body"), none, none⟩]))
      else
        (adelete [] (("loop:") ++ ("n") ++ (":") ++ ("loop")),
         VisNodeResult.success none (some [⟨("complete"), none, none⟩])) :=
  claim9_loop_iteration ⟨("n"), 0, ("loop")⟩ ⟨[], [], ⟨false, false, none⟩⟩ 0
    (Or.inl ⟨rfl, rfl⟩)

end CoreEngineVis
